import Mathlib

/-!
Verification of the Amaradio dual-deck playback engine and DJ narration
subsystem (src/radio-engine.js, src/dj-persona.js) against its
natural-language specification.

The JavaScript classes are shallowly embedded as pure Lean functions over
explicit state records.  JavaScript numbers used for playback positions and
volumes are modelled as rationals; the crossfade gain curve (built from
Math.cos / Math.sin) is modelled over the reals.  `Math.random()`-driven
selection is modelled by an arbitrary choice function `rand : Nat → Nat`
(the k-th random draw picks index `rand k % poolSize`, always in bounds,
exactly the range `Math.floor(Math.random()*len)` can produce).  JavaScript
`%` on possibly-negative cursors is modelled by `Int.tmod`, which has the
same sign convention.
-/

namespace Amaradio

/-- Track energy tag.  `registerGenre` documents the value space as
the three strings 'low' | 'mid' | 'high' (radio-engine.js line 233),
and `_buildEnergyQueue` buckets on exactly these three values. -/
inductive Energy where
  | low
  | mid
  | high
deriving DecidableEq, Repr

/-- Energy-arc phase (radio-engine.js `energyPhase`). -/
inductive Phase where
  | build
  | peak
  | release
  | cooldown
deriving DecidableEq, Repr

/-- A registered track, after `registerGenre` has tagged it with its genre
key and defaulted `energy`/`bpm` (radio-engine.js lines 227-235). -/
structure Track where
  title : String
  artist : String
  url : String
  genreKey : String
  genreName : String
  energy : Energy
  bpm : Int
deriving DecidableEq, Repr

/-- A queue entry: `queue.push({...track, phase})`
(radio-engine.js line 330). -/
abbrev QEntry := Track × Phase

/-- `phaseConfig[phase].tracks` (radio-engine.js lines 63-68). -/
def phaseTracks : Phase → Nat
  | .build => 3
  | .peak => 2
  | .release => 2
  | .cooldown => 1

/-- `phaseConfig[phase].nextPhase` (radio-engine.js lines 63-68). -/
def nextPhase : Phase → Phase
  | .build => .peak
  | .peak => .release
  | .release => .cooldown
  | .cooldown => .build

/-- `energyMap` in `_buildEnergyQueue` (radio-engine.js lines 295-300). -/
def preferredEnergies : Phase → List Energy
  | .build => [.low, .mid]
  | .peak => [.high, .mid]
  | .release => [.mid, .low]
  | .cooldown => [.low]

/-- The energy buckets built from the candidate pool
(radio-engine.js lines 286-290). -/
structure Buckets where
  low : List Track
  mid : List Track
  high : List Track
deriving Repr

def mkBuckets (pool : List Track) : Buckets where
  low := pool.filter (fun t => decide (t.energy = Energy.low))
  mid := pool.filter (fun t => decide (t.energy = Energy.mid))
  high := pool.filter (fun t => decide (t.energy = Energy.high))

def bucketOf (bk : Buckets) : Energy → List Track
  | .low => bk.low
  | .mid => bk.mid
  | .high => bk.high

/-- Candidate pool selection with fallback to the full library
(radio-engine.js lines 276-283). -/
def poolFor (lib : List Track) (filter : String) : List Track :=
  let pool := if filter = "all" then lib
              else lib.filter (fun t => decide (t.genreKey = filter))
  if pool.isEmpty then lib else pool

/-- Uniform random pick from a list: `l[Math.floor(Math.random()*l.length)]`,
with the draw `r` supplied externally; `r % l.length` ranges over exactly
the indices the source can produce. -/
def pickFrom (l : List Track) (r : Nat) : Option Track :=
  if l.isEmpty then none else l[r % l.length]?

/-- One draw of the inner loop of `_buildEnergyQueue`
(radio-engine.js lines 308-327): try the preferred energy buckets in
order, picking randomly from the first non-empty one; otherwise fall back
to a random pick across all buckets combined. -/
def drawTrack (bk : Buckets) (prefs : List Energy) (r : Nat) : Option Track :=
  match prefs.find? (fun e => !(bucketOf bk e).isEmpty) with
  | some e => pickFrom (bucketOf bk e) r
  | none => pickFrom (bk.low ++ bk.mid ++ bk.high) r

/-- The flattened draw schedule: 3 cycles over the four phases, each phase
drawing `phaseConfig[phase].tracks` entries (radio-engine.js lines 303-308). -/
def cycleSchedule : List Phase :=
  [Phase.build, Phase.peak, Phase.release, Phase.cooldown].flatMap
    (fun p => List.replicate (phaseTracks p) p)

def drawSchedule : List Phase :=
  (List.range 3).flatMap (fun _ => cycleSchedule)

/-- The draw loop, with `n` counting random draws consumed so far. -/
def buildRawGo (bk : Buckets) (rand : Nat → Nat) : Nat → List Phase → List QEntry
  | _, [] => []
  | n, p :: ps =>
    match drawTrack bk (preferredEnergies p) (rand n) with
    | some t => (t, p) :: buildRawGo bk rand (n + 1) ps
    | none => buildRawGo bk rand (n + 1) ps

/-- The queue produced by `_buildEnergyQueue` before BPM smoothing
(radio-engine.js lines 274-334). -/
def buildRaw (lib : List Track) (filter : String) (rand : Nat → Nat) : List QEntry :=
  buildRawGo (mkBuckets (poolFor lib filter)) rand 0 drawSchedule

/-! ### BPM smoothing (`_smoothBPMTransitions`, radio-engine.js 342-360) -/

/-- `Math.abs(a.bpm - b.bpm)`. -/
def bpmDelta (a b : QEntry) : Nat := (a.1.bpm - b.1.bpm).natAbs

/-- In-place swap of positions `i` and `j`
(`[queue[i], queue[j]] = [queue[j], queue[i]]`, radio-engine.js line 354). -/
def listSwap (q : List QEntry) (i j : Nat) : List QEntry :=
  match q[i]?, q[j]? with
  | some a, some b => (q.set i b).set j a
  | _, _ => q

/-- The inner lookahead of `_smoothBPMTransitions`
(radio-engine.js lines 351-357): first index `j' ≥ j` whose BPM is within
5 of `prev`. -/
def findCandidate (q : List QEntry) (prev : QEntry) (j : Nat) : Option Nat :=
  if h : j < q.length then
    if bpmDelta prev q[j] ≤ 5 then some j
    else findCandidate q prev (j + 1)
  else none
termination_by q.length - j

/-- One iteration of the outer loop of `_smoothBPMTransitions` at index `i`
(radio-engine.js lines 344-359, with `prev = queue[i-1]`, `curr = queue[i]`). -/
def smoothIter (q : List QEntry) (i : Nat) : List QEntry :=
  match q[i - 1]?, q[i]? with
  | some prev, some curr =>
    if bpmDelta prev curr > 5 then
      match findCandidate q prev (i + 1) with
      | some j => listSwap q i j
      | none => q
    else q
  | _, _ => q

/-- The outer loop `for (i = 1; i < queue.length; i++)`, unrolled with an
explicit iteration count (swaps preserve length, so the count is fixed
at entry). -/
def smoothGo : Nat → List QEntry → Nat → List QEntry
  | 0, q, _ => q
  | n + 1, q, i => smoothGo n (smoothIter q i) (i + 1)

/-- `_smoothBPMTransitions` (radio-engine.js lines 342-360). -/
def smoothBPM (q : List QEntry) : List QEntry :=
  smoothGo (q.length - 1) q 1

/-- The array state just before the outer loop examines index `k ≥ 1`
(`k - 1` iterations have run, on indices `1 … k-1`). -/
def smoothState (q : List QEntry) (k : Nat) : List QEntry :=
  smoothGo (k - 1) q 1

/-- `_buildEnergyQueue` (radio-engine.js lines 274-340): build the raw
energy-arc queue, smooth BPM transitions in place, return it. -/
def buildEnergyQueue (lib : List Track) (filter : String) (rand : Nat → Nat) :
    List QEntry :=
  smoothBPM (buildRaw lib filter rand)

/-! ### Genre registration (`registerGenre`, radio-engine.js 215-248) -/

/-- A raw track as supplied in a registration config; `energy` and `bpm`
may be absent (JS `t.energy || 'mid'`, `t.bpm || 118`). -/
structure RawTrack where
  title : String
  artist : String
  url : String
  energy : Option Energy
  bpm : Option Int
deriving DecidableEq, Repr

/-- A registration config (`{name, genre, color, icon, stream, tracks, ...}`). -/
structure GenreConfig where
  name : Option String
  genre : Option String
  color : Option String
  icon : Option String
  stream : Option String
  description : Option String
  tracks : List RawTrack
deriving DecidableEq, Repr

/-- A registered genre pool (`this.genrePools[key]`). -/
structure GenrePool where
  name : String
  genre : String
  color : String
  icon : String
  stream : Option String
  description : String
  tracks : List Track
deriving DecidableEq, Repr

/-- Engine lifecycle events dispatched through `_fireEvent`
(radio-engine.js 775-780). -/
inductive Ev where
  | errorPlayback
  | stateChange
  | trackChange
  | channelChange
  | energyPhaseChange
deriving DecidableEq, Repr

/-- One playback deck: the media element wrapped by a player slot.
`src`/`time`/`playing` model the element's source URL, playback position
(seconds, as a rational) and whether it is playing. -/
structure Deck where
  src : Option String
  playing : Bool
  time : ℚ
deriving DecidableEq, Repr

/-- The RadioEngine state (radio-engine.js constructor, lines 14-84),
restricted to the fields the playback logic reads and writes.  The
`events` list accumulates fired lifecycle events in order. -/
structure EngineState where
  genrePools : List (String × GenrePool)
  masterLibrary : List Track
  fallbackStream : Option String
  queue : List QEntry
  queueIndex : Int
  currentTrack : Option QEntry
  isTrackMode : Bool
  isPlaying : Bool
  isCrossfading : Bool
  activeFilter : String
  energyPhase : Phase
  tracksInPhase : Nat
  activeIsB : Bool
  deckA : Deck
  deckB : Deck
  events : List Ev
deriving DecidableEq, Repr

def deckOf (s : EngineState) (b : Bool) : Deck :=
  if b then s.deckB else s.deckA

def setDeck (s : EngineState) (b : Bool) (d : Deck) : EngineState :=
  if b then { s with deckB := d } else { s with deckA := d }

def activeDeck (s : EngineState) : Deck := deckOf s s.activeIsB

def fireEvent (s : EngineState) (e : Ev) : EngineState :=
  { s with events := s.events ++ [e] }

/-- JS object property update: assignment to an existing key updates in
place preserving insertion order, a fresh key is appended. -/
def insertPool (pools : List (String × GenrePool)) (key : String)
    (p : GenrePool) : List (String × GenrePool) :=
  if pools.any (fun q => q.1 = key) then
    pools.map (fun q => if q.1 = key then (key, p) else q)
  else pools ++ [(key, p)]

/-- The track-tagging step of `registerGenre` (radio-engine.js 227-235):
each config track is stamped with its genre metadata and defaulted
`energy`/`bpm`. -/
def tagTracks (key : String) (cfg : GenreConfig) : List Track :=
  cfg.tracks.map (fun t =>
    { title := t.title
      artist := t.artist
      url := t.url
      genreKey := key
      genreName := cfg.name.getD key
      energy := t.energy.getD Energy.mid
      bpm := t.bpm.getD 118 })

/-- The genre-pool record `registerGenre` stores under the key
(radio-engine.js 216-224 and 237). -/
def mkPool (key : String) (cfg : GenreConfig) : GenrePool :=
  { name := cfg.name.getD key
    genre := cfg.genre.getD key
    color := cfg.color.getD "#6c0df2"
    icon := cfg.icon.getD "radio"
    stream := cfg.stream
    description := cfg.description.getD ""
    tracks := tagTracks key cfg }

/-- `registerGenre(key, config)` (radio-engine.js 215-248): build the
genre record with defaults, tag each track with the genre metadata and
energy/bpm defaults, overwrite `genrePools[key]`, append the tagged
tracks to `masterLibrary`, and adopt the genre's stream as fallback if
none is set yet. -/
def registerGenre (s : EngineState) (key : String) (cfg : GenreConfig) :
    EngineState :=
  { s with
    genrePools := insertPool s.genrePools key (mkPool key cfg)
    masterLibrary := s.masterLibrary ++ tagTracks key cfg
    fallbackStream :=
      match s.fallbackStream, cfg.stream with
      | none, some u => some u
      | f, _ => f }

/-! ### Playback state machine (navigation and crossfade) -/

/-- `_getCurrentSource` (radio-engine.js 670-675). -/
def getCurrentSource (s : EngineState) : Option String :=
  if s.isTrackMode && decide (0 < s.queue.length) && decide (0 ≤ s.queueIndex)
  then
    match s.queue[s.queueIndex.toNat]? with
    | some e => some e.1.url
    | none => s.fallbackStream
  else s.fallbackStream

/-- `_loadSource` (radio-engine.js 748-753): no-op on a falsy url, else
assign the new source to the deck's element and call `load()` (which
stops playback of that element and rewinds it). -/
def loadSource (s : EngineState) (key : Bool) (url : Option String) :
    EngineState :=
  match url with
  | none => s
  | some u =>
    let d := deckOf s key
    setDeck s key { d with src := some u, time := 0, playing := false }

/-- `_updateCurrentTrack` (radio-engine.js 755-773).  The live-stream
placeholder track is modelled as `none`. -/
def updateCurrentTrack (s : EngineState) : EngineState :=
  let s1 :=
    if s.isTrackMode && decide (0 < s.queue.length) && decide (0 ≤ s.queueIndex)
    then { s with currentTrack := s.queue[s.queueIndex.toNat]? }
    else { s with currentTrack := none }
  fireEvent s1 Ev.trackChange

/-- `_advanceEnergyPhase` (radio-engine.js 362-377). -/
def advanceEnergyPhase (s : EngineState) : EngineState :=
  let tp := s.tracksInPhase + 1
  if tp ≥ phaseTracks s.energyPhase then
    fireEvent
      { s with energyPhase := nextPhase s.energyPhase, tracksInPhase := 0 }
      Ev.energyPhaseChange
  else { s with tracksInPhase := tp }

/-- `_crossfadeToSource(newSource)` up to and including the attempt to
start the incoming deck (radio-engine.js 563-583, 638): no-op on a falsy
source or while a session is in flight; otherwise set `isCrossfading`,
load the source into the inactive deck and try to play it.  `playOk`
is whether `inPlayer.audio.play()` resolves.  On rejection the catch
block logs a console warning, resets the flag, and returns — firing no
event.  On success the ramp is in flight; its completion step is
`crossfadeComplete`. -/
def crossfadeToSource (s : EngineState) (newSource : Option String)
    (playOk : Bool) : EngineState :=
  if newSource.isNone || s.isCrossfading then s
  else
    let s1 := { s with isCrossfading := true }
    let inK := !s1.activeIsB
    let s2 := loadSource s1 inK newSource
    if !playOk then { s2 with isCrossfading := false }
    else
      let d := deckOf s2 inK
      setDeck s2 inK { d with playing := true }

/-- The `progress >= 1` completion branch of the crossfade ramp
(radio-engine.js 615-634): pause and rewind the outgoing deck, flip the
active pointer, clear the flag, refresh the current track and notify. -/
def crossfadeComplete (s : EngineState) : EngineState :=
  let outK := s.activeIsB
  let d := deckOf s outK
  let s1 := setDeck s outK { d with playing := false, time := 0 }
  let s2 := { s1 with activeIsB := !s1.activeIsB, isCrossfading := false }
  fireEvent (updateCurrentTrack s2) Ev.stateChange

/-- The shared tail of `next()`/`previous()` (radio-engine.js 528-533 and
547-552): crossfade to the new current source if playing, else just load
it into the active deck and refresh the current track. -/
def playCurrent (s : EngineState) (playOk : Bool) : EngineState :=
  if s.isPlaying then crossfadeToSource s (getCurrentSource s) playOk
  else updateCurrentTrack (loadSource s s.activeIsB (getCurrentSource s))

/-- `next()` (radio-engine.js 517-534). -/
def engineNext (s : EngineState) (rand : Nat → Nat) (playOk : Bool) :
    EngineState :=
  if !s.isTrackMode || s.queue.isEmpty then s
  else
    let idx := (s.queueIndex + 1).tmod s.queue.length
    let s1 := advanceEnergyPhase { s with queueIndex := idx }
    let s2 :=
      if idx = 0 then
        { s1 with queue := buildEnergyQueue s1.masterLibrary s1.activeFilter rand }
      else s1
    playCurrent s2 playOk

/-- `previous()` (radio-engine.js 536-553). -/
def enginePrevious (s : EngineState) (playOk : Bool) : EngineState :=
  if !s.isTrackMode || s.queue.isEmpty then s
  else if (activeDeck s).time > 3 then
    setDeck s s.activeIsB { activeDeck s with time := 0 }
  else
    playCurrent
      { s with queueIndex := (s.queueIndex - 1 + s.queue.length).tmod s.queue.length }
      playOk

/-- `_startCrossfadeToNext()` (radio-engine.js 641-651), the automatic
near-track-end advance: compute the wrapped next index, bail out if no
entry is there, advance the cursor and phase, and start the crossfade.
It never rebuilds the queue. -/
def startCrossfadeToNext (s : EngineState) (playOk : Bool) : EngineState :=
  if s.isCrossfading || !s.isTrackMode then s
  else
    let nextIndex := (s.queueIndex + 1).tmod s.queue.length
    match (if 0 ≤ nextIndex then s.queue[nextIndex.toNat]? else none) with
    | none => s
    | some nt =>
      let s1 := advanceEnergyPhase { s with queueIndex := nextIndex }
      crossfadeToSource s1 (some nt.1.url) playOk

/-! ### Crossfade gain curve (`doFade`, radio-engine.js 594-611)

The per-frame gain computation is pure real arithmetic on the elapsed
time; it is embedded over `ℝ`. -/

/-- `progress = Math.min(elapsed / duration, 1)` (radio-engine.js 596). -/
noncomputable def fadeProgress (elapsed duration : ℝ) : ℝ :=
  min (elapsed / duration) 1

/-- `fadeOut = Math.cos(progress * Math.PI / 2)` (radio-engine.js 599). -/
noncomputable def fadeOut (p : ℝ) : ℝ := Real.cos (p * Real.pi / 2)

/-- `fadeIn = Math.sin(progress * Math.PI / 2)` (radio-engine.js 600). -/
noncomputable def fadeIn (p : ℝ) : ℝ := Real.sin (p * Real.pi / 2)

/-- `grooveDip = 1 - (Math.sin(progress * Math.PI) * 0.05)`
(radio-engine.js 603). -/
noncomputable def grooveDip (p : ℝ) : ℝ := 1 - Real.sin (p * Real.pi) * 0.05

/-- Outgoing deck gain at elapsed time `t` of a crossfade of length `d`:
`outPlayer.gain.gain.value = fadeOut * grooveDip` (radio-engine.js 606). -/
noncomputable def outGain (t d : ℝ) : ℝ :=
  fadeOut (fadeProgress t d) * grooveDip (fadeProgress t d)

/-- Incoming deck gain at elapsed time `t`:
`inPlayer.gain.gain.value = fadeIn * grooveDip` (radio-engine.js 607). -/
noncomputable def inGain (t d : ℝ) : ℝ :=
  fadeIn (fadeProgress t d) * grooveDip (fadeProgress t d)

/-! ### Narration subsystem (src/dj-persona.js, v2.0)

The combined state of the `AudioInjector`, the `StreamController`, the
host speech-synthesis engine and the music engine fields the narration
path touches.  `duckLevel = 0.25`, `masterGainVal` models the target
value of the master-gain ramp. -/

/-- How a single `voiceSynth.speak` call plays out on the host platform
(dj-persona.js 176-207): synthesis unavailable (the guard at 179-183
calls `onEnd` immediately), the utterance erroring (`onerror`, 195-198,
calls `onEnd`), or normal completion (`onend`, 194).  In every case the
wrapper guarantees `onEnd` runs exactly once. -/
inductive SpeakOutcome where
  | unavailable
  | errored
  | completed
deriving DecidableEq, Repr

/-- Joint narration state: `StreamController` fields (dj-persona.js
316-326), `AudioInjector` fields (216-225), whether the platform
synthesizer currently holds an utterance, and the music-engine fields the
narration path reads or writes. -/
structure NarrState where
  scEnabled : Bool
  hasSpokenIntro : Bool
  transitionsCount : Nat
  isPrepared : Bool
  injQueue : List String
  isSpeaking : Bool
  origVolume : ℚ
  synthSpeaking : Bool
  engineIsPlaying : Bool
  engineCurrentVolume : ℚ
  masterGainVal : ℚ
deriving DecidableEq, Repr

/-- `AudioInjector._duckMusic` (dj-persona.js 267-289): remember the
engine volume and ramp the master gain to `originalVolume * duckLevel`
with `duckLevel = 0.25`. -/
def duckMusic (st : NarrState) : NarrState :=
  let ov := st.engineCurrentVolume
  { st with origVolume := ov, masterGainVal := ov * (1 / 4) }

/-- `AudioInjector._unduckMusic` (dj-persona.js 291-312): ramp the master
gain back to the remembered volume. -/
def unduckMusic (st : NarrState) : NarrState :=
  { st with masterGainVal := st.origVolume }

/-- Apply a function `n` times (used to run a completion callback the
number of times a call reports invoking it). -/
def applyTimes {α : Type} (f : α → α) : Nat → α → α
  | 0, a => a
  | n + 1, a => applyTimes f n (f a)

/-- `AudioInjector.playNext(persona, voiceSynth, onComplete)`
(dj-persona.js 239-265).  Returns the new state together with the number
of times `onComplete` was invoked.  If the queue is empty or speech is in
flight, `onComplete` fires immediately and nothing else happens.
Otherwise the head text is dequeued, `isSpeaking` is set, the music is
ducked and `voiceSynth.speak` is called; whatever the outcome,
`speak` runs the injector's `onEnd` closure exactly once (unduck, clear
`isSpeaking`, call `onComplete`).  In the `errored`/`completed` outcomes
`speak` first cancels any platform utterance and speaks the text
(dj-persona.js 185, 200). -/
def playNext (st : NarrState) (outcome : SpeakOutcome) : NarrState × Nat :=
  if st.injQueue.isEmpty || st.isSpeaking then (st, 1)
  else
    let st1 := { st with injQueue := st.injQueue.tail, isSpeaking := true }
    let st2 := duckMusic st1
    let st3 :=
      match outcome with
      | .unavailable => st2
      | .errored => { st2 with synthSpeaking := false }
      | .completed => { st2 with synthSpeaking := false }
    let st4 := unduckMusic st3
    ({ st4 with isSpeaking := false }, 1)

/-- The completion closure `StreamController.executeTransition` passes to
`playNext` (dj-persona.js 356-359). -/
def transitionComplete (st : NarrState) : NarrState :=
  { st with transitionsCount := st.transitionsCount + 1, isPrepared := false }

/-- `StreamController.executeTransition()` (dj-persona.js 349-366):
no-op while disabled, else run `playNext` with the counting closure as
`onComplete` (applied once per invocation reported by `playNext`). -/
def executeTransition (st : NarrState) (outcome : SpeakOutcome) : NarrState :=
  if !st.scEnabled then st
  else
    let r := playNext st outcome
    applyTimes transitionComplete r.2 r.1

/-- `StreamController.toggle()` (dj-persona.js 387-394): flip `enabled`;
when turning off, cancel any in-flight platform speech
(`voiceSynth.cancel()`, 209-212) and clear the pending narration queue
(`injector.clearQueue()`, 231-233). -/
def scToggle (st : NarrState) : NarrState × Bool :=
  let st1 := { st with scEnabled := !st.scEnabled }
  if !st1.scEnabled then
    let st2 := { st1 with synthSpeaking := false }
    let st3 := { st2 with injQueue := [] }
    (st3, st3.scEnabled)
  else (st1, st1.scEnabled)

/-! ### Auxiliary accessors used in theorem statements -/

/-- The BPM stored at position `i` of a queue (0 when out of range);
used to state the smoothing property. -/
def bpmIdx (q : List QEntry) (i : Nat) : Int :=
  ((q[i]?).map (fun e => e.1.bpm)).getD 0

/-- The concatenation of the track lists of all registered genre pools
(the spec's MasterLibrary law). -/
def poolConcat (s : EngineState) : List Track :=
  (s.genrePools.map (fun p => p.2.tracks)).flatten

/-- A sequence of `registerGenre` calls applied in order. -/
def applyRegs (s : EngineState) : List (String × GenreConfig) → EngineState
  | [] => s
  | (k, c) :: rest => applyRegs (registerGenre s k c) rest

/-! ### Concrete fixtures for witnesses and counterexamples -/

def emptyDeck : Deck := { src := none, playing := false, time := 0 }

/-- The engine state right after the constructor runs
(radio-engine.js 14-84). -/
def initEngineState : EngineState :=
  { genrePools := []
    masterLibrary := []
    fallbackStream := none
    queue := []
    queueIndex := -1
    currentTrack := none
    isTrackMode := false
    isPlaying := false
    isCrossfading := false
    activeFilter := "all"
    energyPhase := Phase.build
    tracksInPhase := 0
    activeIsB := false
    deckA := emptyDeck
    deckB := emptyDeck
    events := [] }

def trackOne : Track :=
  { title := "t1", artist := "a1", url := "u1", genreKey := "g"
    genreName := "G", energy := Energy.low, bpm := 118 }

def trackTwo : Track :=
  { title := "t2", artist := "a2", url := "u2", genreKey := "g"
    genreName := "G", energy := Energy.mid, bpm := 118 }

/-- A mid-session state: two-entry queue, cursor on the last entry,
paused, with the active deck 1.5 seconds into its track. -/
def c1State : EngineState :=
  { initEngineState with
    masterLibrary := [trackOne, trackTwo]
    queue := [(trackOne, Phase.build), (trackTwo, Phase.build)]
    queueIndex := 1
    isTrackMode := true
    isPlaying := false
    deckA := { src := some "u2", playing := false, time := mkRat 3 2 } }

/-- A playing state with the cursor on the last queue entry, no crossfade
in flight (the auto-advance wrap scenario). -/
def c5State : EngineState :=
  { initEngineState with
    masterLibrary := [trackOne]
    queue := [(trackOne, Phase.build), (trackTwo, Phase.build)]
    queueIndex := 1
    isTrackMode := true
    isPlaying := true
    deckA := { src := some "u2", playing := true, time := 100 } }

/-- A playing state used for the crossfade-failure scenario: deck A
active and audibly playing, no session in flight. -/
def c4State : EngineState :=
  { initEngineState with
    masterLibrary := [trackOne, trackTwo]
    queue := [(trackOne, Phase.build), (trackTwo, Phase.build)]
    queueIndex := 0
    isTrackMode := true
    isPlaying := true
    deckA := { src := some "u1", playing := true, time := 50 } }

def c7Config : GenreConfig :=
  { name := some "G", genre := none, color := none, icon := none
    stream := some "s1", description := none
    tracks := [{ title := "t1", artist := "a1", url := "u1"
                 energy := none, bpm := none }] }

def c7ConfigB : GenreConfig :=
  { name := some "H", genre := none, color := none, icon := none
    stream := none, description := none
    tracks := [{ title := "t2", artist := "a2", url := "u2"
                 energy := some Energy.high, bpm := some 124 }] }

/-- The same key registered twice with the same configuration. -/
def c7Twice : EngineState :=
  registerGenre (registerGenre initEngineState "g" c7Config) "g" c7Config

/-- A narration state with one queued text, idle synthesizer, music
playing at full volume. -/
def c8NarrState : NarrState :=
  { scEnabled := true
    hasSpokenIntro := true
    transitionsCount := 2
    isPrepared := true
    injQueue := ["next up"]
    isSpeaking := false
    origVolume := 1
    synthSpeaking := false
    engineIsPlaying := true
    engineCurrentVolume := 1
    masterGainVal := 1 }

/-- A narration state with pending texts and an in-flight utterance. -/
def c9NarrState : NarrState :=
  { c8NarrState with
    injQueue := ["first", "second"]
    isSpeaking := true
    synthSpeaking := true }

def trackB100 : Track := { trackOne with title := "b100", bpm := 100 }

def trackB130 : Track := { trackOne with title := "b130", bpm := 130 }

def trackB104 : Track := { trackOne with title := "b104", bpm := 104 }

/-- A three-entry queue with a 30-BPM jump that the smoothing pass must
repair by a lookahead swap. -/
def c6Queue : List QEntry :=
  [(trackB100, Phase.build), (trackB130, Phase.build), (trackB104, Phase.build)]

/-! ## Theorems -/

/-! ### Frame lemmas: which state fields each operation leaves alone -/

theorem setDeck_queueIndex (s : EngineState) (b : Bool) (d : Deck) :
    (setDeck s b d).queueIndex = s.queueIndex := by
  unfold setDeck; split <;> rfl

theorem setDeck_queue (s : EngineState) (b : Bool) (d : Deck) :
    (setDeck s b d).queue = s.queue := by
  unfold setDeck; split <;> rfl

theorem setDeck_activeIsB (s : EngineState) (b : Bool) (d : Deck) :
    (setDeck s b d).activeIsB = s.activeIsB := by
  unfold setDeck; split <;> rfl

theorem setDeck_events (s : EngineState) (b : Bool) (d : Deck) :
    (setDeck s b d).events = s.events := by
  unfold setDeck; split <;> rfl

theorem setDeck_isPlaying (s : EngineState) (b : Bool) (d : Deck) :
    (setDeck s b d).isPlaying = s.isPlaying := by
  unfold setDeck; split <;> rfl

theorem deckOf_setDeck_ne (s : EngineState) (b c : Bool) (d : Deck)
    (h : b ≠ c) : deckOf (setDeck s b d) c = deckOf s c := by
  cases b <;> cases c <;> simp_all [deckOf, setDeck]

theorem loadSource_queueIndex (s : EngineState) (k : Bool) (u : Option String) :
    (loadSource s k u).queueIndex = s.queueIndex := by
  cases u <;> simp [loadSource, setDeck_queueIndex]

theorem loadSource_queue (s : EngineState) (k : Bool) (u : Option String) :
    (loadSource s k u).queue = s.queue := by
  cases u <;> simp [loadSource, setDeck_queue]

theorem loadSource_activeIsB (s : EngineState) (k : Bool) (u : Option String) :
    (loadSource s k u).activeIsB = s.activeIsB := by
  cases u <;> simp [loadSource, setDeck_activeIsB]

theorem loadSource_events (s : EngineState) (k : Bool) (u : Option String) :
    (loadSource s k u).events = s.events := by
  cases u <;> simp [loadSource, setDeck_events]

theorem loadSource_isPlaying (s : EngineState) (k : Bool) (u : Option String) :
    (loadSource s k u).isPlaying = s.isPlaying := by
  cases u <;> simp [loadSource, setDeck_isPlaying]

theorem deckOf_loadSource_ne (s : EngineState) (k c : Bool) (u : Option String)
    (h : k ≠ c) : deckOf (loadSource s k u) c = deckOf s c := by
  cases u <;> simp [loadSource, deckOf_setDeck_ne _ _ _ _ h]

theorem updateCurrentTrack_queueIndex (s : EngineState) :
    (updateCurrentTrack s).queueIndex = s.queueIndex := by
  unfold updateCurrentTrack fireEvent; split <;> rfl

theorem updateCurrentTrack_queue (s : EngineState) :
    (updateCurrentTrack s).queue = s.queue := by
  unfold updateCurrentTrack fireEvent; split <;> rfl

theorem advanceEnergyPhase_queue (s : EngineState) :
    (advanceEnergyPhase s).queue = s.queue := by
  unfold advanceEnergyPhase fireEvent; dsimp only; split <;> rfl

theorem advanceEnergyPhase_queueIndex (s : EngineState) :
    (advanceEnergyPhase s).queueIndex = s.queueIndex := by
  unfold advanceEnergyPhase fireEvent; dsimp only; split <;> rfl

theorem advanceEnergyPhase_masterLibrary (s : EngineState) :
    (advanceEnergyPhase s).masterLibrary = s.masterLibrary := by
  unfold advanceEnergyPhase fireEvent; dsimp only; split <;> rfl

theorem advanceEnergyPhase_activeFilter (s : EngineState) :
    (advanceEnergyPhase s).activeFilter = s.activeFilter := by
  unfold advanceEnergyPhase fireEvent; dsimp only; split <;> rfl

theorem crossfadeToSource_queueIndex (s : EngineState) (u : Option String)
    (ok : Bool) : (crossfadeToSource s u ok).queueIndex = s.queueIndex := by
  unfold crossfadeToSource
  split
  · rfl
  · split
    · simp [loadSource_queueIndex]
    · simp [setDeck_queueIndex, loadSource_queueIndex]

theorem crossfadeToSource_queue (s : EngineState) (u : Option String)
    (ok : Bool) : (crossfadeToSource s u ok).queue = s.queue := by
  unfold crossfadeToSource
  split
  · rfl
  · split
    · simp [loadSource_queue]
    · simp [setDeck_queue, loadSource_queue]

theorem playCurrent_queueIndex (s : EngineState) (ok : Bool) :
    (playCurrent s ok).queueIndex = s.queueIndex := by
  unfold playCurrent
  split
  · exact crossfadeToSource_queueIndex _ _ _
  · rw [updateCurrentTrack_queueIndex, loadSource_queueIndex]

theorem playCurrent_queue (s : EngineState) (ok : Bool) :
    (playCurrent s ok).queue = s.queue := by
  unfold playCurrent
  split
  · exact crossfadeToSource_queue _ _ _
  · rw [updateCurrentTrack_queue, loadSource_queue]

/-- C8: if every synthesis attempt fails (synthesis unavailable or the
utterance errors), then for a queued narration text processed by
`AudioInjector.playNext` while idle: `isSpeaking` returns to `false`, the
completion callback fires exactly once for that text, the head text is
consumed, and the music playback state (`isPlaying`) is unaffected. -/
theorem c8_synthesis_failure_isolated (st : NarrState) (o : SpeakOutcome)
    (hfail : o = SpeakOutcome.unavailable ∨ o = SpeakOutcome.errored)
    (hq : st.injQueue ≠ []) (hs : st.isSpeaking = false) :
    (playNext st o).1.isSpeaking = false ∧
    (playNext st o).2 = 1 ∧
    (playNext st o).1.engineIsPlaying = st.engineIsPlaying ∧
    (playNext st o).1.injQueue = st.injQueue.tail := by
  have hne : st.injQueue.isEmpty = false := by
    cases hE : st.injQueue with
    | nil => exact absurd hE hq
    | cons a l => rfl
  rcases hfail with h | h <;> subst h <;>
    simp [playNext, duckMusic, unduckMusic, hne, hs]

/-- C8 witness: the theorem applied to a concrete idle state with one
queued text and the synthesis-unavailable outcome. -/
theorem c8_witness :
    (playNext c8NarrState SpeakOutcome.unavailable).1.isSpeaking = false ∧
    (playNext c8NarrState SpeakOutcome.unavailable).2 = 1 ∧
    (playNext c8NarrState SpeakOutcome.unavailable).1.engineIsPlaying
      = c8NarrState.engineIsPlaying ∧
    (playNext c8NarrState SpeakOutcome.unavailable).1.injQueue
      = c8NarrState.injQueue.tail :=
  c8_synthesis_failure_isolated c8NarrState SpeakOutcome.unavailable
    (Or.inl rfl) (by decide) rfl

/-- C9: `StreamController.toggle()` with narration enabled disables it
and, in the same call, cancels any in-flight synthesized speech and
empties the pending narration FIFO. -/
theorem c9_toggle_off_cancels_and_clears (st : NarrState)
    (h : st.scEnabled = true) :
    (scToggle st).1.scEnabled = false ∧ (scToggle st).2 = false ∧
    (scToggle st).1.injQueue = [] ∧
    (scToggle st).1.synthSpeaking = false := by
  simp [scToggle, h]

/-- C9 witness: the theorem applied to an enabled controller with two
pending texts and an in-flight utterance. -/
theorem c9_witness :
    (scToggle c9NarrState).1.scEnabled = false ∧
    (scToggle c9NarrState).2 = false ∧
    (scToggle c9NarrState).1.injQueue = [] ∧
    (scToggle c9NarrState).1.synthSpeaking = false :=
  c9_toggle_off_cancels_and_clears c9NarrState rfl

/-- C10: calling `AudioInjector.playNext` with an empty queue or while
`isSpeaking` dequeues nothing, starts no speech, leaves the music gain
untouched, yet still invokes `onComplete` synchronously exactly once; so
`StreamController.executeTransition` during in-flight speech increments
`transitionsCount` and clears `isPrepared` even though no narration was
produced (shifting the every-4th-transition station-ID cadence). -/
theorem c10_execute_during_speech_counts (st : NarrState) (o : SpeakOutcome)
    (hen : st.scEnabled = true)
    (h : st.injQueue = [] ∨ st.isSpeaking = true) :
    (playNext st o).1 = st ∧
    (playNext st o).2 = 1 ∧
    executeTransition st o =
      { st with transitionsCount := st.transitionsCount + 1
                isPrepared := false } := by
  have hpn : playNext st o = (st, 1) := by
    rcases h with h | h <;> simp [playNext, h]
  refine ⟨by rw [hpn], by rw [hpn], ?_⟩
  simp [executeTransition, hen, hpn, applyTimes, transitionComplete]

/-- C10 witness: the theorem applied to a concrete state with an
in-flight utterance and the completed outcome. -/
theorem c10_witness :
    (playNext c9NarrState SpeakOutcome.completed).1 = c9NarrState ∧
    (playNext c9NarrState SpeakOutcome.completed).2 = 1 ∧
    executeTransition c9NarrState SpeakOutcome.completed =
      { c9NarrState with
          transitionsCount := c9NarrState.transitionsCount + 1
          isPrepared := false } :=
  c10_execute_during_speech_counts c9NarrState SpeakOutcome.completed rfl
    (Or.inr rfl)

/-- C2: at every elapsed time `t` of a crossfade of duration `d`, with
`θ = clamp(t/d, 0, 1)`, the outgoing gain is `cos(θπ/2)·(1 − 0.05·sin(θπ))`
and the incoming gain is `sin(θπ/2)·(1 − 0.05·sin(θπ))`; at `t = 0` the
gains are outgoing 1 / incoming 0, at `t = d` outgoing 0 / incoming 1;
and ignoring the groove-dip factor the squared gains sum to 1. -/
theorem c2_equal_power_crossfade (t d : ℝ) (ht : 0 ≤ t) (hd : 0 < d) :
    outGain t d =
      Real.cos (max 0 (min (t / d) 1) * Real.pi / 2) *
        (1 - 0.05 * Real.sin (max 0 (min (t / d) 1) * Real.pi)) ∧
    inGain t d =
      Real.sin (max 0 (min (t / d) 1) * Real.pi / 2) *
        (1 - 0.05 * Real.sin (max 0 (min (t / d) 1) * Real.pi)) ∧
    outGain 0 d = 1 ∧ inGain 0 d = 0 ∧
    outGain d d = 0 ∧ inGain d d = 1 ∧
    fadeOut (fadeProgress t d) ^ 2 + fadeIn (fadeProgress t d) ^ 2 = 1 := by
  have hclamp : max 0 (min (t / d) 1) = fadeProgress t d := by
    have h0 : 0 ≤ min (t / d) 1 := le_min (div_nonneg ht hd.le) zero_le_one
    simp [fadeProgress, max_eq_right h0]
  have hp0 : fadeProgress 0 d = 0 := by
    simp [fadeProgress, zero_div]
  have hp1 : fadeProgress d d = 1 := by
    simp [fadeProgress, div_self hd.ne']
  refine ⟨?_, ?_, ?_, ?_, ?_, ?_, ?_⟩
  · rw [hclamp]; unfold outGain fadeOut grooveDip; ring
  · rw [hclamp]; unfold inGain fadeIn grooveDip; ring
  · simp [outGain, hp0, fadeOut, grooveDip]
  · simp [inGain, hp0, fadeIn, grooveDip]
  · simp [outGain, hp1, fadeOut, grooveDip, Real.cos_pi_div_two, Real.sin_pi]
  · simp [inGain, hp1, fadeIn, grooveDip, Real.sin_pi_div_two, Real.sin_pi]
  · exact Real.cos_sq_add_sin_sq _

/-- C2 witness: the theorem applied at `t = 1`, `d = 2`. -/
theorem c2_witness :
    outGain 1 2 =
      Real.cos (max 0 (min ((1 : ℝ) / 2) 1) * Real.pi / 2) *
        (1 - 0.05 * Real.sin (max 0 (min ((1 : ℝ) / 2) 1) * Real.pi)) ∧
    inGain 1 2 =
      Real.sin (max 0 (min ((1 : ℝ) / 2) 1) * Real.pi / 2) *
        (1 - 0.05 * Real.sin (max 0 (min ((1 : ℝ) / 2) 1) * Real.pi)) ∧
    outGain 0 2 = 1 ∧ inGain 0 2 = 0 ∧
    outGain 2 2 = 0 ∧ inGain 2 2 = 1 ∧
    fadeOut (fadeProgress 1 2) ^ 2 + fadeIn (fadeProgress 1 2) ^ 2 = 1 :=
  c2_equal_power_crossfade 1 2 (by norm_num) (by norm_num)

/-- C1 counterexample: in track mode with a non-empty queue and the active
deck 1.5 seconds into its track, `previous()` does NOT restart the
current track with `queueIndex` unchanged — it decrements the cursor
(the source's `currentTime > 3` test is the reverse of the claimed
`within the first 3 seconds` behaviour). -/
theorem c1_counterexample :
    c1State.isTrackMode = true ∧ c1State.queue ≠ [] ∧
    (activeDeck c1State).time = mkRat 3 2 ∧ c1State.queueIndex = 1 ∧
    (enginePrevious c1State true).queueIndex = 0 ∧
    (enginePrevious c1State true).queueIndex ≠ c1State.queueIndex := by
  decide

/-- C1 (amended): in track mode with a non-empty queue, `previous()` at a
playback position beyond 3 seconds restarts the current track (position
reset to 0, everything else — `queueIndex` included — unchanged), and at
a position within the first 3 seconds decrements `queueIndex` by one
modulo the queue length, leaving the queue itself unchanged. -/
theorem c1_previous_nav (s : EngineState) (ok : Bool)
    (htm : s.isTrackMode = true) (hq : s.queue ≠ []) :
    ((activeDeck s).time > 3 →
      enginePrevious s ok =
        setDeck s s.activeIsB { activeDeck s with time := 0 }) ∧
    ((activeDeck s).time ≤ 3 →
      (enginePrevious s ok).queueIndex =
        (s.queueIndex - 1 + s.queue.length).tmod s.queue.length ∧
      (enginePrevious s ok).queue = s.queue) := by
  have hne : s.queue.isEmpty = false := by
    cases hE : s.queue with
    | nil => exact absurd hE hq
    | cons a l => rfl
  constructor
  · intro hgt
    unfold enginePrevious
    simp [htm, hne, hgt]
  · intro hle
    have hngt : ¬((activeDeck s).time > 3) := not_lt.mpr hle
    unfold enginePrevious
    simp only [htm, hne, Bool.not_true, Bool.or_false, Bool.false_eq_true,
      if_false, if_neg hngt]
    rw [playCurrent_queueIndex, playCurrent_queue]
    exact ⟨rfl, rfl⟩

/-- C1 witness: the amended theorem applied to the concrete paused state
`c1State`. -/
theorem c1_witness :
    ((activeDeck c1State).time > 3 →
      enginePrevious c1State true =
        setDeck c1State c1State.activeIsB { activeDeck c1State with time := 0 }) ∧
    ((activeDeck c1State).time ≤ 3 →
      (enginePrevious c1State true).queueIndex =
        (c1State.queueIndex - 1 + c1State.queue.length).tmod c1State.queue.length ∧
      (enginePrevious c1State true).queue = c1State.queue) :=
  c1_previous_nav c1State true rfl (by decide)

/-- C4 counterexample: when starting playback of the incoming deck fails,
the session is aborted (flag reset, active pointer unchanged, outgoing
deck still playing) but NO playback error is surfaced on the error
notification channel — the catch block only logs a console warning
(radio-engine.js 579-582), so the claim's error-surfacing conjunct is
false. -/
theorem c4_counterexample :
    (crossfadeToSource c4State (some "u2") false).isCrossfading = false ∧
    (crossfadeToSource c4State (some "u2") false).activeIsB = c4State.activeIsB ∧
    (activeDeck (crossfadeToSource c4State (some "u2") false)).playing = true ∧
    (crossfadeToSource c4State (some "u2") false).events = [] ∧
    Ev.errorPlayback ∉ (crossfadeToSource c4State (some "u2") false).events := by
  decide

/-- C4 (amended): if starting playback on the incoming deck fails during
a crossfade, the session is aborted: `isCrossfading` is reset to false,
the active deck pointer is unchanged, the outgoing deck's state (still
playing) is untouched, playback state is unchanged — and no event at all
is emitted (in particular no playback error reaches the error
notification channel; the failure is only logged to the console). -/
theorem c4_crossfade_play_failure_aborts (s : EngineState) (u : String)
    (hcf : s.isCrossfading = false) :
    (crossfadeToSource s (some u) false).isCrossfading = false ∧
    (crossfadeToSource s (some u) false).activeIsB = s.activeIsB ∧
    activeDeck (crossfadeToSource s (some u) false) = activeDeck s ∧
    (crossfadeToSource s (some u) false).isPlaying = s.isPlaying ∧
    (crossfadeToSource s (some u) false).events = s.events := by
  cases hb : s.activeIsB <;>
    simp [crossfadeToSource, hcf, loadSource, setDeck, activeDeck, deckOf, hb]

/-- C4 witness: the amended theorem applied to the concrete playing state
`c4State`. -/
theorem c4_witness :
    (crossfadeToSource c4State (some "u2") false).isCrossfading = false ∧
    (crossfadeToSource c4State (some "u2") false).activeIsB = c4State.activeIsB ∧
    activeDeck (crossfadeToSource c4State (some "u2") false) = activeDeck c4State ∧
    (crossfadeToSource c4State (some "u2") false).isPlaying = c4State.isPlaying ∧
    (crossfadeToSource c4State (some "u2") false).events = c4State.events :=
  c4_crossfade_play_failure_aborts c4State "u2" rfl

/-- C5 counterexample: with the cursor on the last queue entry, the
automatic near-track-end advance `_startCrossfadeToNext` wraps
`queueIndex` to 0 but keeps the very same queue — it is not the
re-randomized rebuild `_buildEnergyQueue` would produce (here the rebuilt
queue has 24 entries, the replayed one has 2). -/
theorem c5_counterexample :
    c5State.queueIndex = (c5State.queue.length : Int) - 1 ∧
    (startCrossfadeToNext c5State true).queueIndex = 0 ∧
    (startCrossfadeToNext c5State true).queue = c5State.queue ∧
    (startCrossfadeToNext c5State true).queue ≠
      buildEnergyQueue c5State.masterLibrary c5State.activeFilter
        (fun _ => 0) := by
  decide

/-- C5 (amended): when the cursor is on the last queue entry, advancing
through `next()` wraps it to 0 and rebuilds the queue from scratch
(`_buildEnergyQueue` with fresh random selection), but advancing through
the automatic crossfade path `_startCrossfadeToNext` only wraps the
cursor to 0 and replays the same queue without rebuilding. -/
theorem c5_wrap_advance (s : EngineState) (rand : Nat → Nat) (ok : Bool)
    (htm : s.isTrackMode = true) (hq : s.queue ≠ [])
    (hcf : s.isCrossfading = false)
    (hidx : s.queueIndex = (s.queue.length : Int) - 1) :
    (engineNext s rand ok).queue =
      buildEnergyQueue s.masterLibrary s.activeFilter rand ∧
    (engineNext s rand ok).queueIndex = 0 ∧
    (startCrossfadeToNext s ok).queue = s.queue ∧
    (startCrossfadeToNext s ok).queueIndex = 0 := by
  have hne : s.queue.isEmpty = false := by
    cases hE : s.queue with
    | nil => exact absurd hE hq
    | cons a l => rfl
  have hmod : (s.queueIndex + 1).tmod s.queue.length = 0 := by
    rw [hidx]
    have h1 : (s.queue.length : Int) - 1 + 1 = (s.queue.length : Int) := by ring
    rw [h1, Int.tmod_self]
  obtain ⟨e, rest, hqE⟩ : ∃ e rest, s.queue = e :: rest := by
    cases hE : s.queue with
    | nil => exact absurd hE hq
    | cons a l => exact ⟨a, l, rfl⟩
  refine ⟨?_, ?_, ?_, ?_⟩
  · unfold engineNext
    simp [htm, hne, hmod, playCurrent_queue, advanceEnergyPhase_masterLibrary,
      advanceEnergyPhase_activeFilter]
  · unfold engineNext
    simp [htm, hne, hmod, playCurrent_queueIndex, advanceEnergyPhase_queueIndex]
  · unfold startCrossfadeToNext
    simp only [hcf, htm, Bool.not_true, Bool.or_false, Bool.false_eq_true,
      if_false, hmod]
    have hq0 : s.queue[0]? = some e := by rw [hqE]; simp
    simp [hq0, crossfadeToSource_queue, advanceEnergyPhase_queue]
  · unfold startCrossfadeToNext
    simp only [hcf, htm, Bool.not_true, Bool.or_false, Bool.false_eq_true,
      if_false, hmod]
    rw [hqE]
    simp [crossfadeToSource_queueIndex, advanceEnergyPhase_queueIndex]

/-- C5 witness: the amended theorem applied to the concrete playing state
`c5State` with a fixed random stream. -/
theorem c5_witness :
    (engineNext c5State (fun _ => 0) true).queue =
      buildEnergyQueue c5State.masterLibrary c5State.activeFilter
        (fun _ => 0) ∧
    (engineNext c5State (fun _ => 0) true).queueIndex = 0 ∧
    (startCrossfadeToNext c5State true).queue = c5State.queue ∧
    (startCrossfadeToNext c5State true).queueIndex = 0 :=
  c5_wrap_advance c5State (fun _ => 0) true rfl (by decide) rfl (by decide)

/-! ### Registration lemmas (for C7) -/

theorem list_map_fix {α : Type} (f : α → α) (l : List α)
    (h : ∀ x ∈ l, f x = x) : l.map f = l := by
  induction l with
  | nil => rfl
  | cons a t ih =>
    rw [List.map_cons, h a (List.mem_cons_self a t),
      ih (fun x hx => h x (List.mem_cons_of_mem a hx))]

/-- Inserting a fresh key appends it. -/
theorem insertPool_fresh (pools : List (String × GenrePool)) (k : String)
    (p : GenrePool) (h : ∀ q ∈ pools, q.1 ≠ k) :
    insertPool pools k p = pools ++ [(k, p)] := by
  have hany : (pools.any fun q => decide (q.1 = k)) = false := by
    rw [Bool.eq_false_iff]
    intro hc
    rw [List.any_eq_true] at hc
    obtain ⟨q, hqm, hq⟩ := hc
    exact h q hqm (of_decide_eq_true hq)
  simp [insertPool, hany]

/-- Every entry of `insertPool pools k p` keyed `k` is exactly `(k, p)`. -/
theorem insertPool_key_entry (pools : List (String × GenrePool)) (k : String)
    (p : GenrePool) :
    ∀ q ∈ insertPool pools k p, q.1 = k → q = (k, p) := by
  intro q hq hqk
  unfold insertPool at hq
  by_cases hany : (pools.any fun q => decide (q.1 = k)) = true
  · rw [if_pos hany] at hq
    obtain ⟨q0, hq0, hfq⟩ := List.mem_map.mp hq
    by_cases h0 : q0.1 = k
    · rw [if_pos h0] at hfq; exact hfq.symm
    · rw [if_neg h0] at hfq; exact absurd (hfq ▸ hqk) h0
  · rw [if_neg hany] at hq
    rcases List.mem_append.mp hq with hq | hq
    · exact absurd (List.any_eq_true.mpr ⟨q, hq, decide_eq_true hqk⟩) hany
    · simpa using hq

/-- `insertPool pools k p` always contains an entry keyed `k`. -/
theorem insertPool_key_mem (pools : List (String × GenrePool)) (k : String)
    (p : GenrePool) :
    ∃ q ∈ insertPool pools k p, q.1 = k := by
  unfold insertPool
  by_cases hany : (pools.any fun q => decide (q.1 = k)) = true
  · rw [if_pos hany]
    obtain ⟨q0, hq0, hk0⟩ := List.any_eq_true.mp hany
    refine ⟨(k, p), List.mem_map.mpr ⟨q0, hq0, ?_⟩, rfl⟩
    rw [if_pos (of_decide_eq_true hk0)]
  · rw [if_neg hany]
    exact ⟨(k, p), List.mem_append.mpr (Or.inr (List.mem_singleton.mpr rfl)), rfl⟩

/-- The master-library/pool-concatenation invariant is preserved by any
registration sequence whose keys are fresh and pairwise distinct. -/
theorem applyRegs_concat (regs : List (String × GenreConfig)) :
    ∀ s : EngineState, s.masterLibrary = poolConcat s →
      (∀ k ∈ regs.map Prod.fst, ∀ q ∈ s.genrePools, q.1 ≠ k) →
      (regs.map Prod.fst).Nodup →
      (applyRegs s regs).masterLibrary = poolConcat (applyRegs s regs) := by
  induction regs with
  | nil => intro s hinv _ _; exact hinv
  | cons kc rest ih =>
    obtain ⟨k, c⟩ := kc
    intro s hinv hdisj hnd
    have hfresh : ∀ q ∈ s.genrePools, q.1 ≠ k :=
      hdisj k (by simp)
    have hpools : (registerGenre s k c).genrePools =
        s.genrePools ++ [(k, mkPool k c)] := by
      show insertPool s.genrePools k (mkPool k c) = _
      exact insertPool_fresh _ _ _ hfresh
    have hknotin : k ∉ (rest.map Prod.fst) := by
      have := hnd
      rw [List.map_cons, List.nodup_cons] at this
      exact this.1
    show (applyRegs (registerGenre s k c) rest).masterLibrary = _
    apply ih
    · show (registerGenre s k c).masterLibrary = poolConcat (registerGenre s k c)
      have hml : (registerGenre s k c).masterLibrary =
          s.masterLibrary ++ tagTracks k c := rfl
      rw [hml, hinv]
      unfold poolConcat
      rw [hpools]
      simp [mkPool]
    · intro k' hk' q hql
      rw [hpools] at hql
      rcases List.mem_append.mp hql with hql | hql
      · exact hdisj k' (by simp [hk']) q hql
      · have hq : q = (k, mkPool k c) := by simpa using hql
        rw [hq]
        intro hc
        have hk2 : k = k' := hc
        exact hknotin (hk2 ▸ hk')
    · have := hnd
      rw [List.map_cons, List.nodup_cons] at this
      exact this.2

/-- Re-inserting a key whose entries already all carry the payload is the
identity on the pool list. -/
theorem insertPool_idem (pools : List (String × GenrePool)) (k : String)
    (p : GenrePool) (hmem : ∃ q ∈ pools, q.1 = k)
    (hall : ∀ q ∈ pools, q.1 = k → q = (k, p)) :
    insertPool pools k p = pools := by
  have hany : (pools.any fun q => decide (q.1 = k)) = true := by
    rw [List.any_eq_true]
    obtain ⟨q, hq, hk⟩ := hmem
    exact ⟨q, hq, decide_eq_true hk⟩
  unfold insertPool
  rw [if_pos hany]
  apply list_map_fix
  intro q hq
  by_cases hqk : q.1 = k
  · rw [if_pos hqk]; exact (hall q hq hqk).symm
  · rw [if_neg hqk]

/-- C7 counterexample: registering the same key twice with the same
configuration overwrites the pool (pools identical to a single
registration) yet appends the tagged tracks to the master library a
second time — so the library is neither the concatenation of the pools'
track lists nor the single-registration library. -/
theorem c7_counterexample :
    c7Twice.genrePools = (registerGenre initEngineState "g" c7Config).genrePools ∧
    c7Twice.masterLibrary ≠ poolConcat c7Twice ∧
    c7Twice.masterLibrary ≠
      (registerGenre initEngineState "g" c7Config).masterLibrary := by
  decide

/-- C7 (amended): after a sequence of `registerGenre` calls with pairwise
distinct keys, the master library equals the concatenation of the track
lists of all registered genre pools; re-registering an existing key with
the same configuration leaves `genrePools` unchanged (idempotent
overwrite) but appends the key's tagged tracks to the master library
again, so the observable library state is not that of a single
registration. -/
theorem c7_library_law (regs : List (String × GenreConfig))
    (hnd : (regs.map Prod.fst).Nodup)
    (s : EngineState) (k : String) (c : GenreConfig) :
    (applyRegs initEngineState regs).masterLibrary =
      poolConcat (applyRegs initEngineState regs) ∧
    (registerGenre (registerGenre s k c) k c).genrePools =
      (registerGenre s k c).genrePools ∧
    (registerGenre (registerGenre s k c) k c).masterLibrary =
      (registerGenre s k c).masterLibrary ++ tagTracks k c := by
  refine ⟨applyRegs_concat regs initEngineState rfl
      (fun k hk q hq => absurd hq (List.not_mem_nil q)) hnd, ?_, rfl⟩
  show insertPool (insertPool s.genrePools k (mkPool k c)) k (mkPool k c) =
    insertPool s.genrePools k (mkPool k c)
  exact insertPool_idem _ _ _ (insertPool_key_mem s.genrePools k (mkPool k c))
    (insertPool_key_entry s.genrePools k (mkPool k c))

/-- C7 witness: the amended theorem applied to a concrete two-genre
registration sequence and a concrete double registration. -/
theorem c7_witness :
    (applyRegs initEngineState [("g", c7Config), ("h", c7ConfigB)]).masterLibrary =
      poolConcat (applyRegs initEngineState [("g", c7Config), ("h", c7ConfigB)]) ∧
    (registerGenre (registerGenre initEngineState "g" c7Config) "g"
        c7Config).genrePools =
      (registerGenre initEngineState "g" c7Config).genrePools ∧
    (registerGenre (registerGenre initEngineState "g" c7Config) "g"
        c7Config).masterLibrary =
      (registerGenre initEngineState "g" c7Config).masterLibrary ++
        tagTracks "g" c7Config :=
  c7_library_law [("g", c7Config), ("h", c7ConfigB)] (by decide)
    initEngineState "g" c7Config

/-! ### Queue-builder lemmas (for C3 and C6) -/

theorem listSwap_length (q : List QEntry) (i j : Nat) :
    (listSwap q i j).length = q.length := by
  unfold listSwap
  split
  · simp
  · rfl

theorem smoothIter_length (q : List QEntry) (i : Nat) :
    (smoothIter q i).length = q.length := by
  unfold smoothIter
  split
  · split
    · split
      · exact listSwap_length q _ _
      · rfl
    · rfl
  · rfl

theorem smoothGo_length : ∀ (n : Nat) (q : List QEntry) (i : Nat),
    (smoothGo n q i).length = q.length := by
  intro n
  induction n with
  | zero => intro q i; rfl
  | succ n ih =>
    intro q i
    show (smoothGo n (smoothIter q i) (i + 1)).length = q.length
    rw [ih, smoothIter_length]

theorem pickFrom_isSome (l : List Track) (r : Nat) (h : l ≠ []) :
    (pickFrom l r).isSome := by
  have hne : l.isEmpty = false := by
    cases hE : l with
    | nil => exact absurd hE h
    | cons a t => rfl
  have hlt : r % l.length < l.length :=
    Nat.mod_lt _ (List.length_pos.mpr h)
  simp [pickFrom, hne, List.getElem?_eq_getElem hlt]

theorem drawTrack_isSome (bk : Buckets) (prefs : List Energy) (r : Nat)
    (h : bk.low ++ bk.mid ++ bk.high ≠ []) :
    (drawTrack bk prefs r).isSome := by
  unfold drawTrack
  split
  · next e hfind =>
    have hp := List.find?_some hfind
    have hne : (bucketOf bk e) ≠ [] := by
      intro hc
      rw [hc] at hp
      simp at hp
    exact pickFrom_isSome _ _ hne
  · exact pickFrom_isSome _ _ h

theorem mkBuckets_cover (pool : List Track) (h : pool ≠ []) :
    (mkBuckets pool).low ++ (mkBuckets pool).mid ++ (mkBuckets pool).high
      ≠ [] := by
  obtain ⟨t, rest, hE⟩ : ∃ t rest, pool = t :: rest := by
    cases hE : pool with
    | nil => exact absurd hE h
    | cons a l => exact ⟨a, l, rfl⟩
  intro hc
  rw [List.append_eq_nil, List.append_eq_nil] at hc
  have htm : t ∈ pool := hE ▸ List.mem_cons_self t rest
  cases hEn : t.energy with
  | low =>
    have : t ∈ (mkBuckets pool).low :=
      List.mem_filter.mpr ⟨htm, by simp [hEn]⟩
    rw [hc.1.1] at this
    exact absurd this (List.not_mem_nil t)
  | mid =>
    have : t ∈ (mkBuckets pool).mid :=
      List.mem_filter.mpr ⟨htm, by simp [hEn]⟩
    rw [hc.1.2] at this
    exact absurd this (List.not_mem_nil t)
  | high =>
    have : t ∈ (mkBuckets pool).high :=
      List.mem_filter.mpr ⟨htm, by simp [hEn]⟩
    rw [hc.2] at this
    exact absurd this (List.not_mem_nil t)

theorem poolFor_ne (lib : List Track) (filter : String) (h : lib ≠ []) :
    poolFor lib filter ≠ [] := by
  unfold poolFor
  dsimp only
  by_cases hE : (if filter = "all" then lib
      else lib.filter (fun t => decide (t.genreKey = filter))).isEmpty = true
  · rw [if_pos hE]; exact h
  · rw [if_neg hE]
    intro hc
    rw [hc] at hE
    exact hE rfl

theorem buildRawGo_cons_ne (bk : Buckets) (rand : Nat → Nat) (n : Nat)
    (p : Phase) (ps : List Phase)
    (h : (drawTrack bk (preferredEnergies p) (rand n)).isSome) :
    buildRawGo bk rand n (p :: ps) ≠ [] := by
  unfold buildRawGo
  cases hE : drawTrack bk (preferredEnergies p) (rand n) with
  | none => rw [hE] at h; simp at h
  | some t => simp [hE]

/-- C3: for every non-empty track library, `_buildEnergyQueue` returns a
non-empty queue for every filter and every random stream — the empty
filtered pool falls back to the full library, so an empty queue can only
arise from an empty library. -/
theorem c3_queue_nonempty (lib : List Track) (filter : String)
    (rand : Nat → Nat) (h : lib ≠ []) :
    buildEnergyQueue lib filter rand ≠ [] := by
  have hpool := poolFor_ne lib filter h
  have hbk := mkBuckets_cover _ hpool
  have hdraw := drawTrack_isSome (mkBuckets (poolFor lib filter))
    (preferredEnergies Phase.build) (rand 0) hbk
  have hsched : drawSchedule = Phase.build :: drawSchedule.tail := by decide
  have hraw : buildRaw lib filter rand ≠ [] := by
    unfold buildRaw
    rw [hsched]
    exact buildRawGo_cons_ne _ _ _ _ _ hdraw
  unfold buildEnergyQueue smoothBPM
  intro hc
  have hlen := congrArg List.length hc
  rw [smoothGo_length] at hlen
  simp only [List.length_nil] at hlen
  exact hraw (List.length_eq_zero.mp hlen)

/-- C3 witness: the theorem applied to a concrete one-track library with
a filter that matches nothing (exercising the fallback) and a fixed
random stream. -/
theorem c3_witness :
    buildEnergyQueue [trackOne] "nothing" (fun _ => 0) ≠ [] :=
  c3_queue_nonempty [trackOne] "nothing" (fun _ => 0) (by decide)

/-! ### BPM-smoothing lemmas (for C6) -/

theorem bpmIdx_of_lt (q : List QEntry) (j : Nat) (h : j < q.length) :
    bpmIdx q j = (q[j]).1.bpm := by
  simp [bpmIdx, List.getElem?_eq_getElem h]

/-- What a successful inner lookahead guarantees: the found index is at or
after the scan start, in range, and within 5 BPM of `prev`. -/
theorem findCandidate_some (q : List QEntry) (prev : QEntry) (s j : Nat)
    (h : findCandidate q prev s = some j) :
    s ≤ j ∧ j < q.length ∧ (prev.1.bpm - bpmIdx q j).natAbs ≤ 5 := by
  unfold findCandidate at h
  split at h
  · next hs =>
    split at h
    · next hle =>
      injection h with hj
      subst hj
      refine ⟨Nat.le_refl _, hs, ?_⟩
      rw [bpmIdx_of_lt q s hs]
      exact hle
    · next hgt =>
      have ih := findCandidate_some q prev (s + 1) j h
      exact ⟨Nat.le_trans (Nat.le_succ s) ih.1, ih.2⟩
  · exact absurd h (by simp)
termination_by q.length - s

/-- What a failed inner lookahead guarantees: no entry from the scan start
onwards is within 5 BPM of `prev`. -/
theorem findCandidate_none (q : List QEntry) (prev : QEntry) (s : Nat)
    (h : findCandidate q prev s = none) :
    ∀ j, s ≤ j → j < q.length → 5 < (prev.1.bpm - bpmIdx q j).natAbs := by
  intro j hsj hj
  unfold findCandidate at h
  split at h
  · next hs =>
    split at h
    · exact absurd h (by simp)
    · next hgt =>
      by_cases hjs : j = s
      · subst hjs
        rw [bpmIdx_of_lt q j hj]
        exact Nat.not_le.mp hgt
      · exact findCandidate_none q prev (s + 1) h j (by omega) hj
  · next hs => exact absurd (Nat.lt_of_le_of_lt hsj hj) hs
termination_by q.length - s

theorem listSwap_getElem? (q : List QEntry) (i j m : Nat)
    (hi : i < q.length) (hj : j < q.length) :
    (listSwap q i j)[m]? =
      if m = j then q[i]? else if m = i then q[j]? else q[m]? := by
  unfold listSwap
  rw [List.getElem?_eq_getElem hi, List.getElem?_eq_getElem hj]
  show ((q.set i (q[j])).set j (q[i]))[m]? = _
  by_cases hmj : m = j
  · subst hmj
    rw [if_pos rfl]
    rw [List.getElem?_set_eq_of_lt _ (by simpa using hj)]
  · rw [if_neg hmj]
    by_cases hmi : m = i
    · subst hmi
      rw [if_pos rfl]
      rw [List.getElem?_set_ne (fun hc => hmj hc.symm),
        List.getElem?_set_eq_of_lt _ hi]
    · rw [if_neg hmi]
      rw [List.getElem?_set_ne (fun hc => hmj hc.symm),
        List.getElem?_set_ne (fun hc => hmi hc.symm)]

/-- One smoothing iteration at index `i` never touches positions before
`i` (it swaps only positions `i` and some `j > i`). -/
theorem smoothIter_getElem?_lt (q : List QEntry) (i m : Nat) (hm : m < i) :
    (smoothIter q i)[m]? = q[m]? := by
  unfold smoothIter
  split
  · next prev curr hprev hcurr =>
    have hi : i < q.length := by
      by_contra hc
      rw [List.getElem?_eq_none (Nat.le_of_not_lt hc)] at hcurr
      exact Option.noConfusion hcurr
    split
    · split
      · next j hfc =>
        obtain ⟨hle, hjlen, _⟩ := findCandidate_some q prev (i + 1) j hfc
        rw [listSwap_getElem? q i j m hi hjlen,
          if_neg (by omega), if_neg (by omega)]
      · rfl
    · rfl
  · rfl

/-- The remaining iterations of the smoothing loop never touch positions
before the loop index. -/
theorem smoothGo_getElem?_lt : ∀ (n : Nat) (q : List QEntry) (i m : Nat),
    m < i → (smoothGo n q i)[m]? = q[m]? := by
  intro n
  induction n with
  | zero => intro q i m _; rfl
  | succ n ih =>
    intro q i m hm
    show (smoothGo n (smoothIter q i) (i + 1))[m]? = q[m]?
    rw [ih (smoothIter q i) (i + 1) m (by omega),
      smoothIter_getElem?_lt q i m hm]

theorem smoothGo_add (a b : Nat) : ∀ (q : List QEntry) (i : Nat),
    smoothGo (a + b) q i = smoothGo b (smoothGo a q i) (i + a) := by
  induction a with
  | zero =>
    intro q i
    rw [Nat.zero_add, Nat.add_zero]
    rfl
  | succ a ih =>
    intro q i
    rw [show a + 1 + b = (a + b) + 1 from by omega]
    show smoothGo (a + b) (smoothIter q i) (i + 1) = _
    rw [ih (smoothIter q i) (i + 1),
      show i + 1 + a = i + (a + 1) from by omega]
    rfl

/-- C6: after the BPM smoothing pass, every adjacent pair `(i, i+1)`
either differs by at most 5 BPM, or — at the moment the scan examined
position `i+1` (state `smoothState q (i+1)`) — no later entry `j > i+1`
was within 5 BPM of the entry at position `i`. -/
theorem c6_bpm_smoothing (q : List QEntry) (i : Nat)
    (hip : i + 1 < q.length) :
    (bpmIdx (smoothBPM q) i - bpmIdx (smoothBPM q) (i + 1)).natAbs ≤ 5 ∨
    (∀ j, i + 1 < j → j < q.length →
      5 < (bpmIdx (smoothState q (i + 1)) i -
        bpmIdx (smoothState q (i + 1)) j).natAbs) := by
  set s := smoothGo i q 1 with hs_def
  have hsmSt : smoothState q (i + 1) = s := by
    unfold smoothState
    rw [show i + 1 - 1 = i from by omega]
  have hsl : s.length = q.length := smoothGo_length i q 1
  have hiq : i < s.length := by omega
  have hi1q : i + 1 < s.length := by omega
  have hstep : smoothBPM q =
      smoothGo (q.length - 2 - i) (smoothIter s (i + 1)) (i + 2) := by
    unfold smoothBPM
    rw [show q.length - 1 = i + (q.length - 1 - i) from by omega,
      smoothGo_add i (q.length - 1 - i) q 1,
      show (1 : Nat) + i = i + 1 from by omega, ← hs_def,
      show q.length - 1 - i = (q.length - 2 - i) + 1 from by omega]
    show smoothGo (q.length - 2 - i) (smoothIter s (i + 1)) (i + 1 + 1) = _
    rw [show i + 1 + 1 = i + 2 from by omega]
  set u := smoothIter s (i + 1) with hu_def
  have hfi : (smoothBPM q)[i]? = u[i]? := by
    rw [hstep]
    exact smoothGo_getElem?_lt _ _ _ _ (by omega)
  have hfi1 : (smoothBPM q)[i + 1]? = u[i + 1]? := by
    rw [hstep]
    exact smoothGo_getElem?_lt _ _ _ _ (by omega)
  have harm : u = (if bpmDelta (s[i]) (s[i + 1]) > 5 then
      match findCandidate s (s[i]) (i + 2) with
      | some j => listSwap s (i + 1) j
      | none => s
    else s) := by
    rw [hu_def]
    unfold smoothIter
    rw [show i + 1 - 1 = i from by omega,
      List.getElem?_eq_getElem hiq, List.getElem?_eq_getElem hi1q]
  by_cases hd : bpmDelta (s[i]) (s[i + 1]) > 5
  · cases hfc : findCandidate s (s[i]) (i + 2) with
    | some j =>
      left
      obtain ⟨hle, hjlen, hbpm⟩ := findCandidate_some s (s[i]) (i + 2) j hfc
      have hu : u = listSwap s (i + 1) j := by rw [harm, if_pos hd, hfc]
      have hui : u[i]? = s[i]? := by
        rw [hu, listSwap_getElem? s (i + 1) j i hi1q hjlen,
          if_neg (by omega), if_neg (by omega)]
      have hui1 : u[i + 1]? = s[j]? := by
        rw [hu, listSwap_getElem? s (i + 1) j (i + 1) hi1q hjlen,
          if_neg (by omega), if_pos rfl]
      have hbA : bpmIdx (smoothBPM q) i = (s[i]).1.bpm := by
        simp [bpmIdx, hfi, hui, List.getElem?_eq_getElem hiq]
      have hbB : bpmIdx (smoothBPM q) (i + 1) = (s[j]).1.bpm := by
        simp [bpmIdx, hfi1, hui1, List.getElem?_eq_getElem hjlen]
      rw [hbA, hbB]
      rwa [bpmIdx_of_lt s j hjlen] at hbpm
    | none =>
      right
      intro j hj hjq
      have hres := findCandidate_none s (s[i]) (i + 2) hfc j (by omega) (by omega)
      rw [hsmSt, bpmIdx_of_lt s i hiq]
      exact hres
  · left
    have hu : u = s := by rw [harm, if_neg hd]
    have hbA : bpmIdx (smoothBPM q) i = (s[i]).1.bpm := by
      simp [bpmIdx, hfi, hu, List.getElem?_eq_getElem hiq]
    have hbB : bpmIdx (smoothBPM q) (i + 1) = (s[i + 1]).1.bpm := by
      simp [bpmIdx, hfi1, hu, List.getElem?_eq_getElem hi1q]
    rw [hbA, hbB]
    exact Nat.not_lt.mp hd

/-- C6 witness: the theorem applied to the concrete queue
`[100, 130, 104]` (BPMs) at the first adjacent pair. -/
theorem c6_witness :
    (bpmIdx (smoothBPM c6Queue) 0 - bpmIdx (smoothBPM c6Queue) (0 + 1)).natAbs
      ≤ 5 ∨
    (∀ j, 0 + 1 < j → j < c6Queue.length →
      5 < (bpmIdx (smoothState c6Queue (0 + 1)) 0 -
        bpmIdx (smoothState c6Queue (0 + 1)) j).natAbs) :=
  c6_bpm_smoothing c6Queue 0 (by decide)

end Amaradio
